import Mathlib

/-!
Verification of the text-to-structured-record extraction engine of the
`cisco` Go package.  The Go parsers are shallowly embedded as executable
Lean functions over `List Char` (Go strings are modelled as their character
sequences; all inputs of interest are ASCII, where Go's byte indices and
character indices coincide).  Go's `regexp` package uses leftmost-first
(Perl-style) matching; each concrete regular expression of the source is
hand-compiled to a deterministic matching function with that semantics.
Fallible parsers return `Except String`, mirroring the Go `(T, error)`
convention.  Go string slicing panics when an index is out of range; where a
claim is about abort-freedom the slicing is modelled with an explicit
`Option` (`none` = panic); elsewhere slices are evaluated only on concrete
in-bounds inputs.
-/

deriving instance DecidableEq for Except

namespace Cisco

/-! ## Go string primitives -/

/-- Character set of Go's `unicode.IsSpace` (Latin-1 range). -/
def goIsSpace (c : Char) : Bool :=
  c == ' ' || c == '\t' || c == '\n' || c == '\x0b' || c == '\x0c' ||
  c == '\r' || c == '\u0085' || c == ' '

/-- `startsWith pat l` : does `l` begin with `pat`? (`strings.HasPrefix`). -/
def startsWith : List Char → List Char → Bool
  | [], _ => true
  | _ :: _, [] => false
  | p :: ps, c :: cs => p == c && startsWith ps cs

/-- `strings.Index`: position of the first occurrence of `pat` in `hay`,
`none` standing for Go's `-1`. -/
def goIndexSub (hay pat : List Char) : Option Nat :=
  if startsWith pat hay then some 0
  else
    match hay with
    | [] => none
    | _ :: rest => (goIndexSub rest pat).map (· + 1)

/-- `strings.Contains`. -/
def containsSub (hay pat : List Char) : Bool :=
  (goIndexSub hay pat).isSome

/-- `strings.TrimSpace`: strip leading and trailing whitespace. -/
def goTrimSpace (l : List Char) : List Char :=
  ((l.dropWhile goIsSpace).reverse.dropWhile goIsSpace).reverse

/-- `strings.TrimRight(line, "\r")`: strip all trailing carriage returns. -/
def dropTrailingCR (l : List Char) : List Char :=
  (l.reverse.dropWhile (· == '\r')).reverse

/-- `strings.Split(s, "\n")`. -/
def splitNL : List Char → List (List Char)
  | [] => [[]]
  | c :: rest =>
    if c == '\n' then [] :: splitNL rest
    else
      match splitNL rest with
      | [] => [[c]]
      | h :: t => (c :: h) :: t

/-- `strings.Split(s, ",")`. -/
def splitComma : List Char → List (List Char)
  | [] => [[]]
  | c :: rest =>
    if c == ',' then [] :: splitComma rest
    else
      match splitComma rest with
      | [] => [[c]]
      | h :: t => (c :: h) :: t

/-- `strings.Fields`: split around runs of whitespace.  Structural
recursion on a fuel argument (the recursion consumes at least one character
per step, so fuel equal to the length of the input never runs out). -/
def goFieldsF : Nat → List Char → List (List Char)
  | 0, _ => []
  | fuel + 1, l =>
    match l with
    | [] => []
    | c :: rest =>
      if goIsSpace c then goFieldsF fuel rest
      else
        (c :: rest.takeWhile (fun x => !goIsSpace x)) ::
          goFieldsF fuel (rest.dropWhile (fun x => !goIsSpace x))

/-- `strings.Fields`. -/
def goFields (l : List Char) : List (List Char) :=
  goFieldsF l.length l

/-- `strings.Join(xs, sep)`. -/
def joinSep (sep : List Char) : List (List Char) → List Char
  | [] => []
  | [x] => x
  | x :: xs => x ++ sep ++ joinSep sep xs

/-- Go slice expression `s[a:b]` (totalised; evaluated only in bounds). -/
def goSlice (l : List Char) (a b : Nat) : List Char :=
  (l.take b).drop a

/-- Go slice `s[a:b]` with explicit bounds checking: `none` models the
runtime panic on `a ≤ b ≤ len` being violated. -/
def checkedSlice (l : List Char) (a b : Nat) : Option (List Char) :=
  if a ≤ b ∧ b ≤ l.length then some (goSlice l a b) else none

/-- Go slice `s[a:]` with explicit bounds checking. -/
def checkedSliceFrom (l : List Char) (a : Nat) : Option (List Char) :=
  if a ≤ l.length then some (l.drop a) else none

/-! ## Interface name normalizer (`normalizeInterfaceName`,
`cisco_connection.go`) -/

/-- The ordered replacement pairs of the `strings.NewReplacer` call in
`normalizeInterfaceName`. -/
def replacerPairs : List (List Char × List Char) :=
  [("AppGigabitEthernet".data, "Ap".data),
   ("FastEthernet".data, "Fa".data),
   ("GigabitEthernet".data, "Gi".data),
   ("FiveGigabitEthernet".data, "Fi".data),
   ("FiveGi".data, "Fi".data),
   ("TenGigabitEthernet".data, "Te".data),
   ("TenGi".data, "Te".data),
   ("Ten".data, "Te".data),
   ("TwentyGigabitEthernet".data, "Twe".data),
   ("TwentyFiveGigE".data, "Twe".data),
   ("TwentyFigE".data, "Twe".data),
   ("FortyGigabitEthernet".data, "Fo".data),
   ("FortyGi".data, "Fo".data),
   ("HundredGigE".data, "Hu".data),
   ("Gig".data, "Gi".data)]

/-- At the current position, try the replacement pairs in argument order
(the priority Go's `Replacer` gives them) and return the replacement
together with the input remaining after the matched pattern. -/
def tryPairs : List (List Char × List Char) → List Char → Option (List Char × List Char)
  | [], _ => none
  | (pat, rep) :: ps, l =>
    if startsWith pat l then some (rep, l.drop pat.length) else tryPairs ps l

/-- The scan of Go's `strings.Replacer.Replace`: left to right, at each
position the first pair (in argument order) whose pattern matches is
applied and its pattern's characters are skipped; otherwise the character
is copied.  Structural recursion on fuel; every step consumes at least one
character (`tryPairs_shrinks`), so fuel equal to the input length never
runs out. -/
def goReplaceF : Nat → List Char → List Char
  | 0, l => l
  | fuel + 1, l =>
    match tryPairs replacerPairs l with
    | some (rep, rest) => rep ++ goReplaceF fuel rest
    | none =>
      match l with
      | [] => []
      | c :: rest => c :: goReplaceF fuel rest

/-- `strings.Replacer.Replace` for the `normalizeInterfaceName` pairs. -/
def goReplace (l : List Char) : List Char :=
  goReplaceF l.length l

/-- `normalizeInterfaceName` (`cisco_connection.go`): strip spaces
(`strings.ReplaceAll(name, " ", "")`), then apply the replacer. -/
def normalizeInterfaceName (s : String) : String :=
  ⟨goReplace (s.data.filter (fun c => c != ' '))⟩

/-! ## Hand-compiled regular expressions

Go's `regexp` package has leftmost-first (Perl-style) semantics: the match
starting at the earliest position wins, and at a given position
alternatives are tried in written order.  Each concrete pattern of the
source is compiled to an anchored matcher `List Char → Option (List Char)`
returning the text of its (single) capture group; an unanchored pattern is
wrapped in `scanMatch`, which tries every start position from the left. -/

/-- ASCII lower-casing, the effect of the `(?i)` flag on the letters that
occur in the source patterns. -/
def asciiLower (c : Char) : Char :=
  if 'A' ≤ c ∧ c ≤ 'Z' then Char.ofNat (c.toNat + 32) else c

/-- Case-insensitive literal: strip `pat` (given lower-case) from the
front of `l`, returning the remainder. -/
def litCI : List Char → List Char → Option (List Char)
  | [], l => some l
  | _ :: _, [] => none
  | p :: ps, c :: cs => if p == asciiLower c then litCI ps cs else none

/-- Case-insensitive `startsWith` against a lower-case pattern. -/
def startsCI (pat l : List Char) : Bool :=
  (litCI pat l).isSome

/-- `\s*` (greedy, followed in all source patterns by a non-space literal,
so the maximal run is the unique choice). -/
def ws0 (l : List Char) : List Char := l.dropWhile goIsSpace

/-- `\s+`. -/
def ws1 (l : List Char) : Option (List Char) :=
  match l with
  | c :: rest => if goIsSpace c then some (rest.dropWhile goIsSpace) else none
  | [] => none

/-- `([cls]+)` maximal for a character class, requiring at least one
character: returns (capture, rest). -/
def capWhile (cls : Char → Bool) (l : List Char) : Option (List Char × List Char) :=
  let c := l.takeWhile cls
  if c.isEmpty then none else some (c, l.drop c.length)

/-- `(\S+)`. -/
def capNonWS (l : List Char) : Option (List Char × List Char) :=
  capWhile (fun c => !goIsSpace c) l

/-- `(.*)`: greedy, `.` does not match a newline. -/
def capDotStar (l : List Char) : List Char :=
  l.takeWhile (fun c => c != '\n')

/-- `\w` (with `(?i)` irrelevant): ASCII letter, digit or underscore.  The
source texts are ASCII, where Go's Unicode classes agree with this. -/
def isWordChar (c : Char) : Bool :=
  c.isAlpha || c.isDigit || c == '_'

/-- Try each alternation branch at a fixed position, in written order. -/
def tryBranchesAt : List (List Char → Option (List Char)) → List Char → Option (List Char)
  | [], _ => none
  | b :: rest, l =>
    match b l with
    | some r => some r
    | none => tryBranchesAt rest l

/-- An unanchored search: try the anchored branches in order at each start
position from the left (Go's leftmost-first semantics for an alternation
of branches). -/
def scanMatch (bs : List (List Char → Option (List Char))) : List Char → Option (List Char)
  | [] => tryBranchesAt bs []
  | c :: rest =>
    match tryBranchesAt bs (c :: rest) with
    | some r => some r
    | none => scanMatch bs rest

/-! ### `parseVersionInfo` field patterns (`show_03_interfaces_status.go`)

Each Go pattern is an alternation of branches that carry exactly one
capture group each; `FindStringSubmatch` leaves the groups of losing
branches empty, and the caller takes the first group that is non-empty
after trimming — i.e. the winning branch's capture, dropped if it trims
to nothing. -/

/-- `Version ([^,]+),` -/
def verB1 (l : List Char) : Option (List Char) := do
  let r ← litCI "version ".data l
  let cap := r.takeWhile (fun c => c != ',')
  if cap.isEmpty then none
  else
    match r.drop cap.length with
    | ',' :: _ => some cap
    | _ => none

/-- `NXOS:\s*version\s*(\S+).*` -/
def verB2 (l : List Char) : Option (List Char) := do
  let r ← litCI "nxos:".data l
  let r ← litCI "version".data (ws0 r)
  let (cap, _) ← capNonWS (ws0 r)
  some cap

/-- `Active Image\s*:\s*.*?\nVersion\s*:\s*(\S+)` — the lazy `.*?` cannot
cross a newline, so the `\n` matched is the first one after the colon. -/
def verB3 (l : List Char) : Option (List Char) := do
  let r ← litCI "active image".data l
  let r ← litCI ":".data (ws0 r)
  let r2 := r.dropWhile (fun c => c != '\n')
  match r2 with
  | '\n' :: t => do
    let t ← litCI "version".data t
    let t ← litCI ":".data (ws0 t)
    let (cap, _) ← capNonWS (ws0 t)
    some cap
  | _ => none

/-- `Software Version\s*:\s*(\S+)` -/
def verB4 (l : List Char) : Option (List Char) := do
  let r ← litCI "software version".data l
  let r ← litCI ":".data (ws0 r)
  let (cap, _) ← capNonWS (ws0 r)
  some cap

/-- `system:\s*version\s*(\S+)` -/
def verB5 (l : List Char) : Option (List Char) := do
  let r ← litCI "system:".data l
  let r ← litCI "version".data (ws0 r)
  let (cap, _) ← capNonWS (ws0 r)
  some cap

/-- `cisco ([\w-]+[a-z\d\-]+) .* processor`: the capture is the maximal
`[\w-]` run after `cisco ` (greediness makes shorter prefixes impossible,
as they would be followed by a `[\w-]` character where a space is
required); it must decompose into `[\w-]+` then `[a-z\d\-]+`, i.e. have
length at least two and end in a letter, digit or dash (with `(?i)`,
`[a-z]` covers both cases but not `_`); a space and a later ` processor`
(reachable without crossing a newline, since `.` excludes it) follow. -/
def hwB1 (l : List Char) : Option (List Char) := do
  let r ← litCI "cisco ".data l
  let cap := r.takeWhile (fun c => isWordChar c || c == '-')
  let rest := r.drop cap.length
  if cap.length < 2 then none
  else
    match cap.getLast? with
    | none => none
    | some last =>
      if !(last.isAlpha || last.isDigit || last == '-') then none
      else
        match rest with
        | ' ' :: rest2 => if seekCINoNL " processor".data rest2 then some cap else none
        | _ => none
where
  /-- Scan for a case-insensitive literal without crossing a newline
  (the `.*` before it cannot match `\n`). -/
  seekCINoNL (pat : List Char) : List Char → Bool
    | [] => startsCI pat []
    | c :: t => startsCI pat (c :: t) || (c != '\n' && seekCINoNL pat t)

/-- `Board Type\s*:\s*(\S+)` -/
def hwB2 (l : List Char) : Option (List Char) := do
  let r ← litCI "board type".data l
  let r ← litCI ":".data (ws0 r)
  let (cap, _) ← capNonWS (ws0 r)
  some cap

/-- `Product\s*:\s*Cisco ([\w\s]+) Switch`: `[\w\s]+` is greedy, so the
longest prefix of the maximal `[\w\s]` run that is followed by
`\x20Switch` is captured. -/
def hwB3 (l : List Char) : Option (List Char) := do
  let r ← litCI "product".data l
  let r ← litCI ":".data (ws0 r)
  let r ← litCI "cisco ".data (ws0 r)
  let m := r.takeWhile (fun c => isWordChar c || goIsSpace c)
  hwB3cap r m.length
where
  hwB3cap (r : List Char) : Nat → Option (List Char)
    | 0 => none
    | p + 1 =>
      if startsCI " switch".data (r.drop (p + 1)) then some (r.take (p + 1))
      else hwB3cap r p

/-- `cisco (Nexus\S+ [\w-]+ Chassis)` -/
def hwB4 (l : List Char) : Option (List Char) := do
  let r ← litCI "cisco ".data l
  let r1 ← litCI "nexus".data r
  let (m1, r2) ← capNonWS r1
  match r2 with
  | ' ' :: r3 => do
    let (m2, r4) ← capWhile (fun c => isWordChar c || c == '-') r3
    let _ ← litCI " chassis".data r4
    some (r.take (5 + m1.length + 1 + m2.length + 8))
  | _ => none

/-- `cisco ([\w-]+ Chassis)` -/
def hwB5 (l : List Char) : Option (List Char) := do
  let r ← litCI "cisco ".data l
  let (m, r2) ← capWhile (fun c => isWordChar c || c == '-') r
  let _ ← litCI " chassis".data r2
  some (r.take (m.length + 8))

/-- `Version [^,]+, (RELEASE SOFTWARE .*)` -/
def relB1 (l : List Char) : Option (List Char) := do
  let r ← litCI "version ".data l
  let run := r.takeWhile (fun c => c != ',')
  if run.isEmpty then none
  else do
    let r2 ← litCI ", ".data (r.drop run.length)
    let _ ← litCI "release software ".data r2
    some (r2.take (17 + (capDotStar (r2.drop 17)).length))

/-- `System image file is "([^"]+)"` -/
def swB1 (l : List Char) : Option (List Char) := do
  let r ← litCI "system image file is \"".data l
  let cap := r.takeWhile (fun c => c != '"')
  if cap.isEmpty then none
  else
    match r.drop cap.length with
    | '"' :: _ => some cap
    | _ => none

/-- `NXOS image file is:\s*(\S+)` -/
def swB2 (l : List Char) : Option (List Char) := do
  let r ← litCI "nxos image file is:".data l
  let (cap, _) ← capNonWS (ws0 r)
  some cap

/-- `Active Image\s*:\s*([^\s(]+)` -/
def swB3 (l : List Char) : Option (List Char) := do
  let r ← litCI "active image".data l
  let r ← litCI ":".data (ws0 r)
  let (cap, _) ← capWhile (fun c => !goIsSpace c && c != '(') (ws0 r)
  some cap

/-- `system image file is:\s*(\S+)` -/
def swB4 (l : List Char) : Option (List Char) := do
  let r ← litCI "system image file is:".data l
  let (cap, _) ← capNonWS (ws0 r)
  some cap

/-- `System serial number\s*:\s*(\S+)` -/
def serB1 (l : List Char) : Option (List Char) := do
  let r ← litCI "system serial number".data l
  let r ← litCI ":".data (ws0 r)
  let (cap, _) ← capNonWS (ws0 r)
  some cap

/-- `Processor board ID\s*(\S+)` (and, case-insensitively the same,
`Processor Board ID\s*(\S+)`). -/
def serB2 (l : List Char) : Option (List Char) := do
  let r ← litCI "processor board id".data l
  let (cap, _) ← capNonWS (ws0 r)
  some cap

/-- `MAC Address\s*:\s*(\S+)` -/
def serB3 (l : List Char) : Option (List Char) := do
  let r ← litCI "mac address".data l
  let r ← litCI ":".data (ws0 r)
  let (cap, _) ← capNonWS (ws0 r)
  some cap

/-- `uptime is (.+)` -/
def upB1 (l : List Char) : Option (List Char) := do
  let r ← litCI "uptime is ".data l
  let cap := capDotStar r
  if cap.isEmpty then none else some cap

/-- `System Uptime\s*:\s*(\S+)` -/
def upB2 (l : List Char) : Option (List Char) := do
  let r ← litCI "system uptime".data l
  let r ← litCI ":".data (ws0 r)
  let (cap, _) ← capNonWS (ws0 r)
  some cap

/-- `Kernel uptime is (.+)` -/
def upB3 (l : List Char) : Option (List Char) := do
  let r ← litCI "kernel uptime is ".data l
  let cap := capDotStar r
  if cap.isEmpty then none else some cap

/-- `System restarted at (.*)` -/
def rsB1 (l : List Char) : Option (List Char) := do
  let r ← litCI "system restarted at ".data l
  some (capDotStar r)

/-- `Previous Restart\s*:\s*(.*)` -/
def rsB2 (l : List Char) : Option (List Char) := do
  let r ← litCI "previous restart".data l
  let r ← litCI ":".data (ws0 r)
  some (capDotStar (ws0 r))

/-- `Last reset\s*\n\s*Reason:\s*(\S+)`: since `\s` includes the newline,
the pattern matches exactly when the whitespace run after `Last reset`
contains a newline, continuing at the end of that run. -/
def rsB3 (l : List Char) : Option (List Char) := do
  let r ← litCI "last reset".data l
  let w := r.takeWhile goIsSpace
  if w.contains '\n' then do
    let r2 ← litCI "reason:".data (r.drop w.length)
    let (cap, _) ← capNonWS (ws0 r2)
    some cap
  else none

/-- `Last reload reason: (.*)` -/
def rlB1 (l : List Char) : Option (List Char) := do
  let r ← litCI "last reload reason: ".data l
  some (capDotStar r)

/-- `System returned to ROM by (.*)` -/
def rlB2 (l : List Char) : Option (List Char) := do
  let r ← litCI "system returned to rom by ".data l
  some (capDotStar r)

/-- `Last reset\s*\n\s*Reason:\s*(.*)` -/
def rlB3 (l : List Char) : Option (List Char) := do
  let r ← litCI "last reset".data l
  let w := r.takeWhile goIsSpace
  if w.contains '\n' then do
    let r2 ← litCI "reason:".data (r.drop w.length)
    some (capDotStar (ws0 r2))
  else none

/-- `ROM: (.*)` -/
def roB1 (l : List Char) : Option (List Char) := do
  let r ← litCI "rom: ".data l
  some (capDotStar r)

/-- `Bootloader\s*:\s*(\S+)` -/
def roB2 (l : List Char) : Option (List Char) := do
  let r ← litCI "bootloader".data l
  let r ← litCI ":".data (ws0 r)
  let (cap, _) ← capNonWS (ws0 r)
  some cap

/-- `BIOS:\s*version\s*(\S+)` -/
def roB3 (l : List Char) : Option (List Char) := do
  let r ← litCI "bios:".data l
  let r ← litCI "version".data (ws0 r)
  let (cap, _) ← capNonWS (ws0 r)
  some cap

/-- The nine logical fields of `VersionInfo`, in struct order. -/
inductive VField
  | hardware | version | release | softwareImage | serialNumber
  | uptime | restarted | reloadReason | rommon
deriving DecidableEq, Repr

/-- The ordered branch list of each field's pattern.  `serialNumber`
lists `Processor board ID` twice, as the source's alternation does
(identically up to case). -/
def vBranches : VField → List (List Char → Option (List Char))
  | .hardware => [hwB1, hwB2, hwB3, hwB4, hwB5]
  | .version => [verB1, verB2, verB3, verB4, verB5]
  | .release => [relB1]
  | .softwareImage => [swB1, swB2, swB3, swB4]
  | .serialNumber => [serB1, serB2, serB3, serB2]
  | .uptime => [upB1, upB2, upB3]
  | .restarted => [rsB1, rsB2, rsB3]
  | .reloadReason => [rlB1, rlB2, rlB3]
  | .rommon => [roB1, roB2, roB3]

/-- Value a field's pattern yields on one (trimmed) line: the capture of
the leftmost-first match, trimmed, dropped when empty — exactly the
`FindStringSubmatch` + first-non-empty-group loop of `parseVersionInfo`. -/
def vLineValue (f : VField) (rawLine : List Char) : Option (List Char) :=
  match scanMatch (vBranches f) (goTrimSpace rawLine) with
  | none => none
  | some cap =>
    if (goTrimSpace cap).isEmpty then none else some (goTrimSpace cap)

/-- Line-by-line scan of one field over the whole blob: the field is
populated by the first line yielding a value and never overwritten
(`parseVersionInfo` only parses a field while it is still empty).  The
source's nested loop (lines outer, fields inner) touches each field
independently, so it is exactly this per-field fold. -/
def vExtract (f : VField) (lines : List (List Char)) : String :=
  lines.foldl
    (fun acc line =>
      if acc = "" then
        match vLineValue f line with
        | some v => ⟨v⟩
        | none => acc
      else acc) ""

/-- `parseVersionInfo` (`show_03_interfaces_status.go`): scan all lines,
fail when the mandatory `Version` or `SerialNumber` field is still empty,
otherwise return the key→value mapping of the non-empty fields (struct
order; the Go `map` is unordered, so only membership is meaningful). -/
def parseVersionInfo (rawOutput : String) : Except String (List (String × String)) :=
  let lines := splitNL rawOutput.data
  let get := fun f => vExtract f lines
  if get .version = "" ∨ get .serialNumber = "" then
    .error "could not parse essential version info from output"
  else
    .ok (([("Hardware", get .hardware), ("Version", get .version),
           ("Release", get .release), ("SoftwareImage", get .softwareImage),
           ("SerialNumber", get .serialNumber), ("Uptime", get .uptime),
           ("Restarted", get .restarted), ("ReloadReason", get .reloadReason),
           ("Rommon", get .rommon)] : List (String × String)).filter
      (fun kv => kv.2 ≠ ""))

/-! ## `parseInterfaceStatus` (`show_03_interfaces_status.go`) -/

structure InterfaceStatus where
  Interface : String
  Description : String
  Status : String
  VlanID : String
  Duplex : String
  Speed : String
  «Type» : String
deriving DecidableEq, Repr

/-- The known status keywords of `parseInterfaceStatus`. -/
def statusKeyword (s : List Char) : Bool :=
  s == "connected".data || s == "notconnect".data || s == "disabled".data ||
  s == "err-disabled".data || s == "suspended".data || s == "monitoring".data

/-- One iteration of the data loop of `parseInterfaceStatus`: trim, skip
blank/separator/secondary-header lines, require at least six fields, pivot
on the first status keyword at index `1 ≤ j ≤ len-5`. -/
def statusLine (rawLine : List Char) : Option InterfaceStatus :=
  let line := goTrimSpace rawLine
  if line.isEmpty || startsWith "----".data line || startsWith "Name".data line then none
  else
    let flds := goFields line
    if flds.length < 6 then none
    else
      match (List.range' 1 (flds.length - 5)).find? (fun j => statusKeyword (flds.getD j [])) with
      | none => none
      | some j =>
        some { Interface := ⟨flds.getD 0 []⟩,
               Description := ⟨joinSep [' '] ((flds.take j).drop 1)⟩,
               Status := ⟨flds.getD j []⟩,
               VlanID := ⟨flds.getD (j + 1) []⟩,
               Duplex := ⟨flds.getD (j + 2) []⟩,
               Speed := ⟨flds.getD (j + 3) []⟩,
               «Type» := ⟨joinSep [' '] (flds.drop (j + 4))⟩ }

/-- The header search of `parseInterfaceStatus`: the first line at index
`i ≥ 1` whose trimmed text contains both `Port` and `Vlan`. -/
def statusAnchorIdx (lines : List (List Char)) : Option Nat :=
  (List.range' 1 (lines.length - 1)).find?
    (fun i =>
      let t := goTrimSpace (lines.getD i [])
      containsSub t "Port".data && containsSub t "Vlan".data)

/-- `parseInterfaceStatus`. -/
def parseInterfaceStatus (rawOutput : String) : Except String (List InterfaceStatus) :=
  let lines := splitNL rawOutput.data
  match statusAnchorIdx lines with
  | none => .error "could not find interface status header in output"
  | some i =>
    if i + 1 ≥ lines.length then .error "could not find interface status header in output"
    else .ok ((lines.drop (i + 1)).filterMap statusLine)

/-- The records `Show_interfaces_status` hands back for a given command
output: the parse result unchanged — the wrapper applies no interface-name
normalization (an error or an empty parse both surface as no records). -/
def interfaceStatusRecords (rawOutput : String) : List InterfaceStatus :=
  match parseInterfaceStatus rawOutput with
  | .error _ => []
  | .ok l => l

/-! ## `parseVlanInfo` (`src/unnamed/part_003`) -/

structure VlanInfo where
  VLANID : String
  VLANName : String
  Status : String
  Ports : List String
deriving DecidableEq, Repr

/-- Pre-cleanup VLAN record (ports as collected, before the final
trim-and-drop-empties pass). -/
structure VlanRaw where
  VLANID : List Char
  VLANName : List Char
  Status : List Char
  Ports : List (List Char)
deriving DecidableEq, Repr

/-- Append continuation-line ports to the most recent VLAN
(`vlans[len(vlans)-1]`). -/
def vlanAppendLast : List VlanRaw → List (List Char) → List VlanRaw
  | [], _ => []
  | [v], ps => [{ v with Ports := v.Ports ++ ps }]
  | v :: vs, ps => v :: vlanAppendLast vs ps

/-- The data loop of `parseVlanInfo`: stop at a `VLAN Type` line, skip
blanks, start a record at a digit-led line with at least three fields
(ports = the comma-split of the concatenated remaining fields), treat any
other line as a port continuation of the most recent VLAN. -/
def vlanLoop : List (List Char) → List VlanRaw → List VlanRaw
  | [], acc => acc
  | l :: rest, acc =>
    let line := dropTrailingCR l
    if startsWith "VLAN Type".data line then acc
    else if line.isEmpty then vlanLoop rest acc
    else if (match line with | c :: _ => c.isDigit | [] => false) then
      let flds := goFields line
      if flds.length < 3 then vlanLoop rest acc
      else
        let ports := if flds.length > 3 then splitComma (joinSep [] (flds.drop 3)) else []
        vlanLoop rest (acc ++ [⟨flds.getD 0 [], flds.getD 1 [], flds.getD 2 [], ports⟩])
    else if !acc.isEmpty then
      vlanLoop rest (vlanAppendLast acc (splitComma (goTrimSpace line)))
    else vlanLoop rest acc

/-- The cleanup pass of `parseVlanInfo`: trim every collected port and
drop the empty ones. -/
def vlanClean (v : VlanRaw) : VlanInfo :=
  { VLANID := ⟨v.VLANID⟩, VLANName := ⟨v.VLANName⟩, Status := ⟨v.Status⟩,
    Ports := ((v.Ports.map goTrimSpace).filter (fun p => !p.isEmpty)).map
      (fun p => (⟨p⟩ : String)) }

/-- `parseVlanInfo`. -/
def parseVlanInfo (rawOutput : String) : Except String (List VlanInfo) :=
  let lines := splitNL rawOutput.data
  match lines.findIdx? (fun l => startsWith "VLAN Name".data l) with
  | none => .error "could not find VLAN header in output"
  | some i => .ok ((vlanLoop (lines.drop (i + 2)) []).map vlanClean)

/-! ## `parseMacAddressTable` (`show_04_mac_address_table.go`) -/

structure MacAddressEntry where
  Interface : String
  MacAddress : String
  VlanID : String
  «Type» : String
deriving DecidableEq, Repr

/-- `(?:\s+[\w\-])*\s+(\S+)`: the greedy star consumes pairs of a
whitespace run and exactly one word-or-dash character, backtracking to
finish with `\s+(\S+)`.  Each star iteration consumes at least two
characters, so fuel equal to the input length never runs out. -/
def macTailF : Nat → List Char → Option (List Char)
  | 0, _ => none
  | fuel + 1, l =>
    match
      (do
        let r ← ws1 l
        match r with
        | c :: t => if isWordChar c || c == '-' then macTailF fuel t else none
        | [] => none) with
    | some cap => some cap
    | none => do
      let r ← ws1 l
      let (cap, _) ← capNonWS r
      some cap

/-- `^\s*\*?\s*(\d+)\s+([\w\.]+)\s+([\w]+)(?:\s+[\w\-])*\s+(\S+)`,
anchored at the start of the (already trimmed) line; returns the four
captures (vlan, mac, type, interface). -/
def macLineMatch (line : List Char) : Option (List Char × List Char × List Char × List Char) := do
  let r := line.dropWhile goIsSpace
  let r := match r with | '*' :: t => t | _ => r
  let r := r.dropWhile goIsSpace
  let (vlan, r) ← capWhile Char.isDigit r
  let r ← ws1 r
  let (mac, r) ← capWhile (fun c => isWordChar c || c == '.') r
  let r ← ws1 r
  let (typ, r) ← capWhile isWordChar r
  let intf ← macTailF r.length r
  some (vlan, mac, typ, intf)

/-- The banner/separator/summary filter of `parseMacAddressTable`. -/
def macSkipLine (line : List Char) : Bool :=
  line.isEmpty || containsSub line "Mac Address Table".data ||
  containsSub line "Vlan".data || containsSub line "----".data ||
  containsSub line "Total Mac Addresses".data || containsSub line "CPU".data

/-- `parseMacAddressTable` (its Go error is always nil, so the result is
just the entry list). -/
def parseMacAddressTable (rawOutput : String) : List MacAddressEntry :=
  (splitNL rawOutput.data).filterMap (fun l =>
    let line := goTrimSpace l
    if macSkipLine line then none
    else
      match macLineMatch line with
      | some (vlan, mac, typ, intf) =>
        some { VlanID := ⟨goTrimSpace vlan⟩, MacAddress := ⟨mac⟩,
               «Type» := ⟨typ⟩, Interface := ⟨intf⟩ }
      | none => none)

/-! ## `parsePowerInline` (`show_03_interfaces_status.go`) -/

structure PowerModuleInfo where
  Module : String
  Available : String
  Used : String
  Remaining : String
deriving DecidableEq, Repr

structure PowerInterfaceInfo where
  Interface : String
  Admin : String
  Oper : String
  Power : String
  Device : String
  Class : String
  Max : String
deriving DecidableEq, Repr

/-- The three states of the `parsePowerInline` section state machine. -/
inductive PowerSection
  | secNone | secModule | secInterface
deriving DecidableEq, Repr

/-- One line of the `parsePowerInline` loop: a blank line resets to
`secNone`; a first field equal to a section keyword switches state and is
discarded; otherwise the line is parsed (or silently ignored) according to
the current state's shape predicate. -/
def powerStep (st : PowerSection × List PowerModuleInfo × List PowerInterfaceInfo)
    (line : List Char) : PowerSection × List PowerModuleInfo × List PowerInterfaceInfo :=
  let (sec, mods, ifs) := st
  let flds := goFields line
  match flds with
  | [] => (.secNone, mods, ifs)
  | f0 :: _ =>
    if f0 == "Module".data then (.secModule, mods, ifs)
    else if f0 == "Interface".data then (.secInterface, mods, ifs)
    else
      match sec with
      | .secNone => (sec, mods, ifs)
      | .secModule =>
        if flds.length == 4 && !startsWith "---".data f0 then
          (sec, mods ++ [{ Module := ⟨f0⟩, Available := ⟨flds.getD 1 []⟩,
                           Used := ⟨flds.getD 2 []⟩, Remaining := ⟨flds.getD 3 []⟩ }], ifs)
        else (sec, mods, ifs)
      | .secInterface =>
        if flds.length ≥ 6 && containsSub f0 "/".data then
          (sec, mods,
           ifs ++ [{ Interface := ⟨f0⟩, Admin := ⟨flds.getD 1 []⟩,
                     Oper := ⟨flds.getD 2 []⟩, Power := ⟨flds.getD 3 []⟩,
                     Device := ⟨joinSep [' '] ((flds.take (flds.length - 2)).drop 4)⟩,
                     Class := ⟨flds.getD (flds.length - 2) []⟩,
                     Max := ⟨flds.getD (flds.length - 1) []⟩ }])
        else (sec, mods, ifs)

/-- The two sequences `parsePowerInline` accumulates over the blob. -/
def powerScan (rawOutput : String) : List PowerModuleInfo × List PowerInterfaceInfo :=
  let r := (splitNL rawOutput.data).foldl powerStep (.secNone, [], [])
  (r.2.1, r.2.2)

/-- `parsePowerInline`: fails exactly when both sequences are empty. -/
def parsePowerInline (rawOutput : String) :
    Except String (List PowerModuleInfo × List PowerInterfaceInfo) :=
  if (powerScan rawOutput).1.isEmpty && (powerScan rawOutput).2.isEmpty then
    .error "could not find module or interface data in output"
  else .ok (powerScan rawOutput)

/-! ## `parseLldpNeighbors` (`show_08_lldp_neighbors.go`)

The data lines are cut at the column offsets discovered in the header;
Go's slice expressions panic when out of range, which the embedding makes
explicit via `checkedSlice` — the outer `Option` layer is `none` exactly
when the Go code would abort. -/

structure LldpNeighbor where
  Interface : String
  Neighbor : String
  NeighborInterface : String
  HoldTime : String
  Capability : String
deriving DecidableEq, Repr

/-- One data line of `parseLldpNeighbors` (the line stripped of trailing
carriage returns first, as in the source): `some none` = skipped,
`some (some r)` = record emitted, `none` = a slice was out of bounds
(Go panic). -/
def lldpLineChecked (d li h c p : Nat) (line : List Char) : Option (Option LldpNeighbor) :=
  if (goTrimSpace line).isEmpty || containsSub line "Total entries displayed".data then
    some none
  else if line.length < p then some none
  else do
    let intf ← checkedSlice line li h
    let nb ← checkedSlice line d li
    let nIntf ← checkedSliceFrom line p
    let hold ← checkedSlice line h c
    let cap ← checkedSlice line c p
    some (some { Interface := ⟨goTrimSpace intf⟩, Neighbor := ⟨goTrimSpace nb⟩,
                 NeighborInterface := ⟨goTrimSpace nIntf⟩, HoldTime := ⟨goTrimSpace hold⟩,
                 Capability := ⟨goTrimSpace cap⟩ })

/-- The data loop of `parseLldpNeighbors`, propagating a panic; each raw
line is first stripped of trailing carriage returns
(`strings.TrimRight(lines[i], "\r")`). -/
def lldpLines (d li h c p : Nat) : List (List Char) → Option (List LldpNeighbor)
  | [] => some []
  | x :: xs =>
    match lldpLineChecked d li h c p (dropTrailingCR x) with
    | none => none
    | some none => lldpLines d li h c p xs
    | some (some r) => (lldpLines d li h c p xs).map (r :: ·)

/-- `parseLldpNeighbors` with explicit panic modelling (`none` = abort):
find the `Device ID` header line, locate the five column labels (`-1`
modelled as `Option.none`), then slice each following data line. -/
def parseLldpNeighborsChecked (rawOutput : String) :
    Option (Except String (List LldpNeighbor)) :=
  match (splitNL rawOutput.data).findIdx? (fun l => startsWith "Device ID".data l) with
  | none => some (.ok [])
  | some hi =>
    match goIndexSub ((splitNL rawOutput.data).getD hi []) "Device ID".data,
          goIndexSub ((splitNL rawOutput.data).getD hi []) "Local Intf".data,
          goIndexSub ((splitNL rawOutput.data).getD hi []) "Hold-time".data,
          goIndexSub ((splitNL rawOutput.data).getD hi []) "Capability".data,
          goIndexSub ((splitNL rawOutput.data).getD hi []) "Port ID".data with
    | some d, some li, some h, some c, some p =>
      (lldpLines d li h c p ((splitNL rawOutput.data).drop (hi + 1))).map .ok
    | _, _, _, _, _ => some (.error "could not parse LLDP neighbors header columns")

/-! ## `parseCdpNeighbors` (`src/unnamed/part_002`) -/

structure CdpNeighbor where
  Neighbor : String
  Interface : String
  HoldTime : String
  Capability : String
  Platform : String
  NeighborInterface : String
deriving DecidableEq, Repr

/-- The skip filter of the CDP data loop (applied to the trimmed line). -/
def cdpSkipLine (trimmed : List Char) : Bool :=
  trimmed.isEmpty || containsSub trimmed "Total cdp entries".data ||
  containsSub trimmed "Device-ID".data || containsSub trimmed "---".data

/-- One data line of `parseCdpNeighbors` (part_002 version), threading the
`lastDeviceID` state.  Slices are totalised (`goSlice`); every input this
development evaluates is in bounds. -/
def cdpStep (li ht cap pf pid : Nat)
    (st : List CdpNeighbor × List Char) (line : List Char) :
    List CdpNeighbor × List Char :=
  let (ns, lastDev) := st
  let trimmed := goTrimSpace line
  if cdpSkipLine trimmed then st
  else
    let isDetail :=
      decide (line.length > li) &&
      (goTrimSpace (goSlice line 0 li)).isEmpty &&
      !(goTrimSpace (line.drop li)).isEmpty
    if isDetail then
      if lastDev.isEmpty then st
      else if line.length < pid && line.length < pf then st
      else
        (ns ++ [{ Neighbor := ⟨lastDev⟩,
                  Interface := ⟨goTrimSpace (goSlice line li ht)⟩,
                  HoldTime := ⟨goTrimSpace (goSlice line ht cap)⟩,
                  Capability := ⟨goTrimSpace (goSlice line cap pf)⟩,
                  Platform := ⟨goTrimSpace (goSlice line pf pid)⟩,
                  NeighborInterface := ⟨goTrimSpace (line.drop pid)⟩ }], [])
    else if line.length ≥ pf then
      let dev := if line.length > li then goTrimSpace (goSlice line 0 li) else trimmed
      (ns ++ [{ Neighbor := ⟨dev⟩,
                Interface := ⟨goTrimSpace (goSlice line li ht)⟩,
                HoldTime := ⟨goTrimSpace (goSlice line ht cap)⟩,
                Capability := ⟨goTrimSpace (goSlice line cap pf)⟩,
                Platform := ⟨goTrimSpace (goSlice line pf pid)⟩,
                NeighborInterface := ⟨goTrimSpace (line.drop pid)⟩ }], [])
    else (ns, trimmed)

/-- `parseCdpNeighbors` (part_002): find a header containing `Device` and
`Port ID`; missing header returns the empty list without error; a missing
column label (in particular `Local Intrfce`, with `Hldtme` falling back to
`Holdtme`) is an error. -/
def parseCdpNeighbors (rawOutput : String) : Except String (List CdpNeighbor) :=
  let lines := splitNL rawOutput.data
  match lines.findIdx?
      (fun l => containsSub l "Device".data && containsSub l "Port ID".data) with
  | none => .ok []
  | some hi =>
    let header := lines.getD hi []
    let li? := goIndexSub header "Local Intrfce".data
    let ht? :=
      match goIndexSub header "Hldtme".data with
      | some x => some x
      | none => goIndexSub header "Holdtme".data
    match li?, ht?, goIndexSub header "Capability".data,
          goIndexSub header "Platform".data, goIndexSub header "Port ID".data with
    | some li, some ht, some cap, some pf, some pid =>
      .ok ((lines.drop (hi + 1)).foldl (cdpStep li ht cap pf pid) ([], [])).1
    | _, _, _, _, _ =>
      .error "could not parse CDP neighbors header columns correctly (check alignment)"

/-- The normalization `Show_cdp_neighbors` applies to every parsed record
before returning it. -/
def cdpNormalize (r : CdpNeighbor) : CdpNeighbor :=
  { r with Interface := normalizeInterfaceName r.Interface,
           NeighborInterface := normalizeInterfaceName r.NeighborInterface }

/-- The records `Show_cdp_neighbors` hands back for a given command
output: on a parse error it logs and keeps the nil slice, so the caller
sees no records and no failure. -/
def cdpNeighborsFromOutput (rawOutput : String) : List CdpNeighbor :=
  match parseCdpNeighbors rawOutput with
  | .error _ => []
  | .ok l => l.map cdpNormalize

/-! ## `parseInterfaceConfig` (`show_03_interfaces_status.go`) -/

structure InterfaceConfig where
  Interface : String
  ConfigLines : List String
deriving DecidableEq, Repr

/-- The skip filter of `parseInterfaceConfig` (blank, comment and global
lines, applied to the trimmed line). -/
def cfgSkip (line : List Char) : Bool :=
  line.isEmpty || startsWith "!".data line || startsWith "version".data line ||
  startsWith "hostname".data line

/-- `^interface\s+(\S+)$` (case-sensitive): the captured name, when the
trimmed line is exactly `interface` + whitespace + one token. -/
def cfgStartName (line : List Char) : Option (List Char) := do
  let r ← if startsWith "interface".data line then some (line.drop 9) else none
  let r2 ← ws1 r
  if r2.isEmpty || r2.any goIsSpace then none else some r2

/-- One line of the `parseInterfaceConfig` loop. -/
def cfgStep (st : List InterfaceConfig × Option InterfaceConfig) (l : List Char) :
    List InterfaceConfig × Option InterfaceConfig :=
  let (cfgs, cur) := st
  let line := goTrimSpace l
  if cfgSkip line then st
  else
    match cfgStartName line with
    | some name =>
      (cfgs ++ cur.toList, some { Interface := ⟨name⟩, ConfigLines := [(⟨line⟩ : String)] })
    | none =>
      match cur with
      | some c => (cfgs, some { c with ConfigLines := c.ConfigLines ++ [(⟨line⟩ : String)] })
      | none => st

/-- `parseInterfaceConfig`: stitch `interface <name>` blocks, always
emitting the final accumulated block; zero blocks is an error. -/
def parseInterfaceConfig (rawOutput : String) : Except String (List InterfaceConfig) :=
  let r := (splitNL rawOutput.data).foldl cfgStep ([], none)
  let cfgs := r.1 ++ r.2.toList
  if cfgs.isEmpty then .error "no interface configurations found"
  else .ok cfgs

/-! ## `parseInterfaces` (`src/unnamed/part_001`)

The structural layer: the active-output cleaning window, the
record-start predicate and the block stitcher.  Of `parseSingleInterface`
the embedding carries its `reStatus` match, which alone decides whether a
stitched block is emitted (`iface.Interface != ""` holds exactly when
`reStatus` matched); the remaining fields of `InterfaceDetails` are
independent per-block regex extractions with no influence on which records
are emitted or on their order. -/

/-- `^\S+[>#]\s*$` — a device prompt line. -/
def promptLine (line : List Char) : Bool :=
  let r := (line.reverse.dropWhile goIsSpace).reverse
  match r.getLast? with
  | some c => (c == '>' || c == '#') && decide (r.length ≥ 2) && r.all (fun x => !goIsSpace x)
  | none => false

/-- One line of the cleaning loop of `parseInterfaces`: collection starts
after a line containing `show interface` and stops at a prompt line. -/
def cleanStep (st : Bool × List (List Char)) (l : List Char) : Bool × List (List Char) :=
  let (active, acc) := st
  let line := dropTrailingCR l
  if !active && containsSub line "show interface".data then (true, acc)
  else
    let active := if active && promptLine line then false else active
    if active then (active, acc ++ [line]) else (active, acc)

/-- The cleaned line window of `parseInterfaces`. -/
def cleanLines (rawOutput : String) : List (List Char) :=
  ((splitNL rawOutput.data).foldl cleanStep (false, [])).2

/-- `^(\S+\d+\S*)\s+is\s+.*` — the record-start predicate: the first
token contains a digit after its first character and is followed by the
word `is` and more whitespace. -/
def ifaceStartMatch (line : List Char) : Bool :=
  match capNonWS line with
  | none => false
  | some (tok, rest) =>
    (tok.drop 1).any Char.isDigit &&
    (match ws1 rest with
     | some r2 => startsWith "is".data r2 && (ws1 (r2.drop 2)).isSome
     | none => false)

/-- Status alternatives of `reStatus`, in written (leftmost-first) order. -/
def statusAlts : List (List Char) :=
  ["administratively down".data, "down".data, "up".data, "err-disabled".data, "deleted".data]

/-- Protocol alternatives of `reStatus`'s optional group. -/
def protoAlts : List (List Char) :=
  ["down".data, "up".data, "down (disabled)".data]

/-- First alternative (in order) matching at this position. -/
def firstAltAt : List (List Char) → List Char → Option (List Char)
  | [], _ => none
  | a :: as, l => if startsWith a l then some a else firstAltAt as l

/-- The three captures of `reStatus`
(`^(\S+)\s+is\s+(administratively down|down|up|err-disabled|deleted)`
`(?:,\s+line\s+protocol\s+is\s+(down|up|down \(disabled\)))?`),
anchored at block start; `proto = none` models an empty third group. -/
structure IfaceStatusMatch where
  intf : List Char
  link : List Char
  proto : Option (List Char)
deriving DecidableEq, Repr

/-- `reStatus` of `parseSingleInterface`. -/
def reStatusMatch (block : List Char) : Option IfaceStatusMatch := do
  let (tok, rest) ← capNonWS block
  let r2 ← ws1 rest
  let r3 ← if startsWith "is".data r2 then some (r2.drop 2) else none
  let r4 ← ws1 r3
  let alt ← firstAltAt statusAlts r4
  let r5 := r4.drop alt.length
  let proto :=
    (do
      let q ← if startsWith ",".data r5 then some (r5.drop 1) else none
      let q ← ws1 q
      let q ← if startsWith "line".data q then some (q.drop 4) else none
      let q ← ws1 q
      let q ← if startsWith "protocol".data q then some (q.drop 8) else none
      let q ← ws1 q
      let q ← if startsWith "is".data q then some (q.drop 2) else none
      let q ← ws1 q
      firstAltAt protoAlts q)
  some ⟨tok, alt, proto⟩

/-- One line of the stitching loop of `parseInterfaces`: a start line
flushes the current block and opens a new one; other lines append to the
current block when one is open and are dropped otherwise. -/
def blocksStep (st : List (List (List Char)) × List (List Char)) (line : List Char) :
    List (List (List Char)) × List (List Char) :=
  let (blocks, cur) := st
  if ifaceStartMatch line then
    (blocks ++ (if cur.isEmpty then [] else [cur]), [line])
  else if !cur.isEmpty then (blocks, cur ++ [line])
  else st

/-- All blocks `parseInterfaces` stitches (including the final one). -/
def parseInterfacesBlocks (rawOutput : String) : List (List (List Char)) :=
  let r := (cleanLines rawOutput).foldl blocksStep ([], [])
  r.1 ++ (if r.2.isEmpty then [] else [r.2])

/-- `strings.Join(block, "\n")`. -/
def joinNL (lines : List (List Char)) : List Char := joinSep ['\n'] lines

/-- The blocks whose records `parseInterfaces` actually emits: those whose
joined text matches `reStatus` (the `iface.Interface != ""` filter). -/
def parseInterfacesEmitted (rawOutput : String) : List (List (List Char)) :=
  (parseInterfacesBlocks rawOutput).filter (fun b => (reStatusMatch (joinNL b)).isSome)

/-! ## Shared lemmas -/

theorem startsWith_length_le {pat l : List Char} (h : startsWith pat l = true) :
    pat.length ≤ l.length := by
  induction pat generalizing l with
  | nil => simp
  | cons p ps ih =>
    cases l with
    | nil => simp [startsWith] at h
    | cons c cs =>
      simp only [startsWith, Bool.and_eq_true] at h
      simpa using ih h.2

theorem tryPairs_shrinks {ps : List (List Char × List Char)} {l rep rest : List Char}
    (hne : ∀ p ∈ ps, p.1 ≠ []) (h : tryPairs ps l = some (rep, rest)) :
    rest.length < l.length := by
  induction ps with
  | nil => simp [tryPairs] at h
  | cons q qs ih =>
    obtain ⟨pat, r⟩ := q
    simp only [tryPairs] at h
    by_cases hsw : startsWith pat l = true
    · rw [if_pos hsw] at h
      obtain ⟨-, h2⟩ := Prod.mk.injEq .. ▸ Option.some.injEq .. ▸ h
      have hlen := startsWith_length_le hsw
      have hp : pat ≠ [] := hne (pat, r) (List.mem_cons_self _ _)
      have hp1 : 1 ≤ pat.length := by
        cases pat with
        | nil => exact absurd rfl hp
        | cons _ _ => simp
      subst h2
      simp only [List.length_drop]
      omega
    · rw [if_neg hsw] at h
      exact ih (fun p hp => hne p (List.mem_cons_of_mem _ hp)) h

theorem replacerPairs_nonempty : ∀ p ∈ replacerPairs, p.1 ≠ [] := by
  decide

theorem startsWith_false_of_not_contains {l pat : List Char}
    (h : containsSub l pat = false) : startsWith pat l = false := by
  by_contra hsw
  have hsw' : startsWith pat l = true := by
    cases hh : startsWith pat l
    · exact absurd hh hsw
    · rfl
  unfold containsSub goIndexSub at h
  rw [hsw'] at h
  simp at h

theorem not_contains_tail {c : Char} {rest pat : List Char}
    (h : containsSub (c :: rest) pat = false) : containsSub rest pat = false := by
  unfold containsSub at h ⊢
  unfold goIndexSub at h
  by_cases hsw : startsWith pat (c :: rest) = true
  · rw [if_pos hsw] at h
    simp at h
  · rw [if_neg hsw] at h
    simpa using h

theorem tryPairs_none_of_no_match {ps : List (List Char × List Char)} {l : List Char}
    (h : ∀ p ∈ ps, startsWith p.1 l = false) : tryPairs ps l = none := by
  induction ps with
  | nil => rfl
  | cons q qs ih =>
    obtain ⟨pat, rep⟩ := q
    have h1 : startsWith pat l = false := h (pat, rep) (List.mem_cons_self _ _)
    simp only [tryPairs, h1, Bool.false_eq_true, if_false]
    exact ih (fun p hp => h p (List.mem_cons_of_mem _ hp))

/-- If no replacement pattern occurs anywhere in `l`, the replacer copies
`l` unchanged. -/
theorem goReplaceF_id {l : List Char} {fuel : Nat}
    (hfuel : l.length ≤ fuel)
    (h : ∀ p ∈ replacerPairs, containsSub l p.1 = false) :
    goReplaceF fuel l = l := by
  induction fuel generalizing l with
  | zero => rfl
  | succ n ih =>
    have hnone : tryPairs replacerPairs l = none :=
      tryPairs_none_of_no_match
        (fun p hp => startsWith_false_of_not_contains (h p hp))
    cases l with
    | nil => simp [goReplaceF, hnone]
    | cons c rest =>
      have hr : ∀ p ∈ replacerPairs, containsSub rest p.1 = false :=
        fun p hp => not_contains_tail (h p hp)
      have hlen : rest.length ≤ n := by
        simp only [List.length_cons] at hfuel
        omega
      simp only [goReplaceF, hnone]
      rw [ih hlen hr]

/-! ## C5: normalizer idempotence, corrected -/

/-- C5 (counterexample): `normalizeInterfaceName` is not idempotent on all
inputs — `"Gigg"` normalizes to `"Gig"` (the `Gig` alias fires and leaves a
fresh `Gig`), which a second pass shortens to `"Gi"`. -/
theorem normalize_not_idempotent_on_Gigg :
    normalizeInterfaceName "Gigg" = "Gig" ∧
    normalizeInterfaceName (normalizeInterfaceName "Gigg") = "Gi" ∧
    normalizeInterfaceName (normalizeInterfaceName "Gigg") ≠ normalizeInterfaceName "Gigg" := by
  refine ⟨by decide, by decide, by decide⟩

/-- C5 (amended): on every already-canonical name — one containing no
space and no occurrence of any verbose alias pattern — the normalizer is
the identity, and hence double normalization equals single normalization
there. -/
theorem normalize_canonical_unchanged (s : String)
    (hsp : ∀ c ∈ s.data, (c != ' ') = true)
    (hal : ∀ p ∈ replacerPairs, containsSub s.data p.1 = false) :
    normalizeInterfaceName s = s ∧
    normalizeInterfaceName (normalizeInterfaceName s) = normalizeInterfaceName s := by
  have hfilter : s.data.filter (fun c => c != ' ') = s.data :=
    List.filter_eq_self.mpr hsp
  have hid : normalizeInterfaceName s = s := by
    unfold normalizeInterfaceName goReplace
    rw [hfilter, goReplaceF_id (Nat.le_refl _) hal]
  exact ⟨hid, by rw [hid, hid]⟩

/-- C5 (witness): `"Gi1/0/1"` is canonical and the amended theorem applies
to it. -/
theorem normalize_canonical_unchanged_witness :
    normalizeInterfaceName "Gi1/0/1" = "Gi1/0/1" ∧
    normalizeInterfaceName (normalizeInterfaceName "Gi1/0/1") =
      normalizeInterfaceName "Gi1/0/1" :=
  normalize_canonical_unchanged "Gi1/0/1" (by decide) (by decide)

/-! ## C1: CDP end-to-end case 1, corrected -/

/-- C1 (counterexample): on the exact two-line blob of end-to-end case 1
the CDP parser does not return a record at all — its header carries the
LLDP-style label `Local Intf`, while `parseCdpNeighbors` requires
`Local Intrfce`, so the column lookup fails, the parse returns the
header-columns error, and the `Show_cdp_neighbors` pipeline (which logs
the error and keeps the nil slice) yields zero records instead of the
claimed one. -/
theorem cdp_case1_exact_blob_fails :
    parseCdpNeighbors "Device ID        Local Intf     Hldtme   Capability  Platform  Port ID\nswitch-core.local Gig 1/0/1      120      R S I       WS-C3850  Gig 1/0/24\n" =
      .error "could not parse CDP neighbors header columns correctly (check alignment)" ∧
    cdpNeighborsFromOutput "Device ID        Local Intf     Hldtme   Capability  Platform  Port ID\nswitch-core.local Gig 1/0/1      120      R S I       WS-C3850  Gig 1/0/24\n" = [] := by
  refine ⟨by decide, by decide⟩

/-- C1 (amended): with the CDP spelling `Local Intrfce` in the header
(padded so every label keeps its column offset), the parse followed by the
`Show_cdp_neighbors` normalization returns exactly one record with
Neighbor `switch-core.local`, Interface `Gi1/0/1`, HoldTime `120`,
Capability `R S I`, Platform `WS-C3850`, NeighborInterface `Gi1/0/24`,
and no failure. -/
theorem cdp_case1_amended :
    parseCdpNeighbors "Device ID        Local Intrfce  Hldtme   Capability  Platform  Port ID\nswitch-core.local Gig 1/0/1      120      R S I       WS-C3850  Gig 1/0/24\n" =
      .ok [{ Neighbor := "switch-core.local", Interface := "Gig 1/0/1",
             HoldTime := "120", Capability := "R S I", Platform := "WS-C3850",
             NeighborInterface := "Gig 1/0/24" }] ∧
    cdpNeighborsFromOutput "Device ID        Local Intrfce  Hldtme   Capability  Platform  Port ID\nswitch-core.local Gig 1/0/1      120      R S I       WS-C3850  Gig 1/0/24\n" =
      [{ Neighbor := "switch-core.local", Interface := "Gi1/0/1",
         HoldTime := "120", Capability := "R S I", Platform := "WS-C3850",
         NeighborInterface := "Gi1/0/24" }] := by
  refine ⟨by decide, by decide⟩

/-! ## C3: interface-status pivot, corrected -/

theorem find?_range'_first {p : Nat → Bool} {j : Nat} (s n : Nat)
    (hlo : s ≤ j) (hhi : j < s + n) (hj : p j = true)
    (hmin : ∀ k, s ≤ k → k < j → p k = false) :
    (List.range' s n).find? p = some j := by
  induction n generalizing s with
  | zero => omega
  | succ m ih =>
    rw [List.range'_succ]
    by_cases hsj : s = j
    · subst hsj
      exact List.find?_cons_of_pos _ hj
    · have hps : p s = false := hmin s (Nat.le_refl _) (by omega)
      rw [List.find?_cons_of_neg _ (by simp [hps])]
      exact ih (s + 1) (by omega) (by omega) (fun k hk1 hk2 => hmin k (by omega) hk2)

/-- C3 (counterexample): the claim as stated omits the skip conditions of
the data loop.  The line `Name1 connected 1 full 1000 TX` splits into six
tokens whose first status keyword sits at index 1, yet `parseInterfaceStatus`
emits no record for it, because trimmed lines beginning with `Name` are
skipped as secondary headers. -/
theorem status_name_line_skipped :
    (goFields (goTrimSpace "Name1 connected 1 full 1000 TX".data)).length = 6 ∧
    statusKeyword ((goFields (goTrimSpace "Name1 connected 1 full 1000 TX".data)).getD 1 []) = true ∧
    parseInterfaceStatus "x\nPort Vlan\nName1 connected 1 full 1000 TX" = .ok [] := by
  refine ⟨by decide, by decide, by decide⟩

/-- C3 (amended): for every line after the header anchor that — after
trimming — is non-blank and does not begin with `----` or `Name`, splits
into `n ≥ 6` tokens, and whose first status keyword among indices
`1..n-5` is at index `j`, the data loop emits exactly the claimed record:
Interface = token 0, Description = tokens `1..j-1` joined by single
spaces, Status = token `j`, VlanID, Duplex, Speed the three following
tokens, and Type = tokens `j+4..n-1` joined by single spaces; in
particular the line of end-to-end case 3 yields exactly its record. -/
theorem status_line_pivot :
    (∀ (rawLine : List Char) (flds : List (List Char)) (j : Nat),
      (goTrimSpace rawLine).isEmpty = false →
      startsWith "----".data (goTrimSpace rawLine) = false →
      startsWith "Name".data (goTrimSpace rawLine) = false →
      goFields (goTrimSpace rawLine) = flds →
      6 ≤ flds.length →
      1 ≤ j → j ≤ flds.length - 5 →
      statusKeyword (flds.getD j []) = true →
      (∀ k, 1 ≤ k → k < j → statusKeyword (flds.getD k []) = false) →
      statusLine rawLine =
        some { Interface := ⟨flds.getD 0 []⟩,
               Description := ⟨joinSep [' '] ((flds.take j).drop 1)⟩,
               Status := ⟨flds.getD j []⟩,
               VlanID := ⟨flds.getD (j + 1) []⟩,
               Duplex := ⟨flds.getD (j + 2) []⟩,
               Speed := ⟨flds.getD (j + 3) []⟩,
               «Type» := ⟨joinSep [' '] (flds.drop (j + 4))⟩ }) ∧
    parseInterfaceStatus "show interface status\nPort      Name  Status  Vlan  Duplex  Speed  Type\nGi1/0/1  Uplink to core  connected  1  full  1000  10/100/1000BaseTX" =
      .ok [{ Interface := "Gi1/0/1", Description := "Uplink to core",
             Status := "connected", VlanID := "1", Duplex := "full",
             Speed := "1000", «Type» := "10/100/1000BaseTX" }] := by
  constructor
  · intro rawLine flds j hne hd hn hf hlen hj1 hj2 hkey hmin
    have hfind : (List.range' 1 (flds.length - 5)).find?
        (fun k => statusKeyword (flds.getD k [])) = some j :=
      find?_range'_first 1 (flds.length - 5) hj1 (by omega) hkey hmin
    simp only [statusLine, hne, hd, hn, hf, hfind, Bool.false_eq_true, Bool.or_self,
      Bool.or_false, Bool.false_or, if_false]
    rw [if_neg (by omega)]
  · decide

/-- C3 (witness): the amended per-line theorem applied to the end-to-end
case 3 line, whose pivot index is 4. -/
theorem status_line_pivot_witness :
    statusLine "Gi1/0/1  Uplink to core  connected  1  full  1000  10/100/1000BaseTX".data =
      some { Interface := "Gi1/0/1", Description := "Uplink to core",
             Status := "connected", VlanID := "1", Duplex := "full",
             Speed := "1000", «Type» := "10/100/1000BaseTX" } := by
  have h := status_line_pivot.1
    "Gi1/0/1  Uplink to core  connected  1  full  1000  10/100/1000BaseTX".data
    (goFields (goTrimSpace "Gi1/0/1  Uplink to core  connected  1  full  1000  10/100/1000BaseTX".data))
    4 (by decide) (by decide) (by decide) rfl (by decide) (by decide) (by decide)
    (by decide) (by decide)
  exact h.trans (by decide)

/-! ## C2: normalization invariant, corrected -/

theorem statusLine_interface {l : List Char} {r : InterfaceStatus}
    (h : statusLine l = some r) :
    r.Interface = ⟨(goFields (goTrimSpace l)).getD 0 []⟩ := by
  simp only [statusLine] at h
  split at h
  · simp at h
  · split at h
    · simp at h
    · split at h
      · simp at h
      · rw [Option.some.injEq] at h
        subst h
        rfl

/-- C2 (counterexample): `Show_interfaces_status` applies no
normalization; a verbose interface token survives unshortened, so its
`Interface` field differs from `normalizeInterfaceName` of the source
text. -/
theorem status_interface_not_normalized :
    interfaceStatusRecords "show\nPort Vlan\nGigabitEthernet1/0/1 uplink connected 1 full 1000 TX" =
      [{ Interface := "GigabitEthernet1/0/1", Description := "uplink", Status := "connected",
         VlanID := "1", Duplex := "full", Speed := "1000", «Type» := "TX" }] ∧
    normalizeInterfaceName "GigabitEthernet1/0/1" = "Gi1/0/1" ∧
    ("GigabitEthernet1/0/1" : String) ≠ normalizeInterfaceName "GigabitEthernet1/0/1" := by
  refine ⟨by decide, by decide, by decide⟩

/-- C2 (amended): interface-bearing fields are not universally
normalized.  The `Interface` of every record `Show_interfaces_status`
returns is the verbatim first token of its source line; the VLAN and
MAC-table parsers likewise return interface text verbatim (a verbose
`GigabitEthernet1/0/1` survives unshortened, where the normalizer would
produce `Gi1/0/1`); normalization does happen in the `Show_cdp_neighbors`
pipeline, whose output is exactly the parsed records with `Interface` and
`NeighborInterface` normalized. -/
theorem interface_fields_normalization_corrected :
    (∀ (raw : String) (r : InterfaceStatus),
      r ∈ interfaceStatusRecords raw →
      ∃ l ∈ splitNL raw.data, r.Interface = ⟨(goFields (goTrimSpace l)).getD 0 []⟩) ∧
    (∀ (raw : String) (l : List CdpNeighbor),
      parseCdpNeighbors raw = .ok l →
      cdpNeighborsFromOutput raw = l.map cdpNormalize) ∧
    parseVlanInfo "VLAN Name Status Ports\n----\n10 DATA active GigabitEthernet1/0/1" =
      .ok [{ VLANID := "10", VLANName := "DATA", Status := "active",
             Ports := ["GigabitEthernet1/0/1"] }] ∧
    parseMacAddressTable " 10    0011.2233.4455    STATIC      GigabitEthernet1/0/1" =
      [{ Interface := "GigabitEthernet1/0/1", MacAddress := "0011.2233.4455",
         VlanID := "10", «Type» := "STATIC" }] ∧
    normalizeInterfaceName "GigabitEthernet1/0/1" = "Gi1/0/1" := by
  refine ⟨?_, ?_, by decide, by decide, by decide⟩
  · intro raw r hr
    unfold interfaceStatusRecords at hr
    cases hp : parseInterfaceStatus raw with
    | error e => rw [hp] at hr; simp at hr
    | ok lst =>
      rw [hp] at hr
      simp only [parseInterfaceStatus] at hp
      split at hp
      · simp at hp
      · next i hsome =>
        split at hp
        · simp at hp
        · rw [Except.ok.injEq] at hp
          subst hp
          have hr' : r ∈ ((splitNL raw.data).drop (i + 1)).filterMap statusLine := hr
          obtain ⟨l, hl, hsl⟩ := List.mem_filterMap.mp hr'
          exact ⟨l, List.mem_of_mem_drop hl, statusLine_interface hsl⟩
  · intro raw l hp
    simp only [cdpNeighborsFromOutput]
    rw [hp]

/-- C2 (witness): the verbatim-token conclusion at a concrete blob and
record. -/
theorem interface_fields_normalization_witness :
    ∃ l ∈ splitNL ("show\nPort Vlan\nGi1/0/1 connected 1 full 1000 TX" : String).data,
      ({ Interface := "Gi1/0/1", Description := "", Status := "connected",
         VlanID := "1", Duplex := "full", Speed := "1000",
         «Type» := "TX" } : InterfaceStatus).Interface =
        ⟨(goFields (goTrimSpace l)).getD 0 []⟩ :=
  interface_fields_normalization_corrected.1
    "show\nPort Vlan\nGi1/0/1 connected 1 full 1000 TX" _ (by decide)

/-! ## C4 and C6: device-identity parsing -/

theorem vExtract_stays {f : VField} {acc : String} (lines : List (List Char))
    (h : acc ≠ "") :
    lines.foldl
      (fun acc line =>
        if acc = "" then
          match vLineValue f line with
          | some v => (⟨v⟩ : String)
          | none => acc
        else acc) acc = acc := by
  induction lines with
  | nil => rfl
  | cons x xs ih =>
    simp only [List.foldl_cons, if_neg h]
    exact ih

theorem vExtract_zeros {f : VField} (lines : List (List Char))
    (h : ∀ l ∈ lines, vLineValue f l = none) :
    lines.foldl
      (fun acc line =>
        if acc = "" then
          match vLineValue f line with
          | some v => (⟨v⟩ : String)
          | none => acc
        else acc) "" = "" := by
  induction lines with
  | nil => rfl
  | cons x xs ih =>
    simp only [List.foldl_cons, if_pos rfl, h x (List.mem_cons_self _ _)]
    exact ih (fun l hl => h l (List.mem_cons_of_mem _ hl))

theorem vExtract_empty {f : VField} (lines : List (List Char))
    (h : ∀ l ∈ lines, vLineValue f l = none) : vExtract f lines = "" := by
  unfold vExtract
  exact vExtract_zeros lines h

theorem vLineValue_ne_nil {f : VField} {l v : List Char}
    (h : vLineValue f l = some v) : v ≠ [] := by
  unfold vLineValue at h
  split at h
  · simp at h
  · split at h
    · simp at h
    · next ht =>
      rw [Option.some.injEq] at h
      subst h
      intro hv
      rw [hv] at ht
      simp at ht

theorem vExtract_first {f : VField} {pre rest : List (List Char)} {a v : List Char}
    (hpre : ∀ x ∈ pre, vLineValue f x = none)
    (ha : vLineValue f a = some v) :
    vExtract f (pre ++ a :: rest) = ⟨v⟩ := by
  unfold vExtract
  rw [List.foldl_append]
  rw [vExtract_zeros pre hpre]
  simp only [List.foldl_cons, if_pos rfl, ha]
  refine vExtract_stays rest ?_
  intro hcon
  have : v = [] := congrArg String.data hcon
  exact vLineValue_ne_nil ha this

/-- C4: `parseVersionInfo` fails exactly when, after scanning the whole
blob, the `Version` or the `SerialNumber` field is still empty; on
success the returned mapping contains non-empty entries for both; and a
blob none of whose lines matches a `Version` or serial-number pattern
yields the mandatory-field-missing failure. -/
theorem version_mandatory_fields (raw : String) :
    ((parseVersionInfo raw).toOption = none ↔
      vExtract .version (splitNL raw.data) = "" ∨
      vExtract .serialNumber (splitNL raw.data) = "") ∧
    (∀ m, parseVersionInfo raw = .ok m →
      ("Version", vExtract .version (splitNL raw.data)) ∈ m ∧
      vExtract .version (splitNL raw.data) ≠ "" ∧
      ("SerialNumber", vExtract .serialNumber (splitNL raw.data)) ∈ m ∧
      vExtract .serialNumber (splitNL raw.data) ≠ "") ∧
    ((∀ l ∈ splitNL raw.data, vLineValue .version l = none) →
     (∀ l ∈ splitNL raw.data, vLineValue .serialNumber l = none) →
     parseVersionInfo raw = .error "could not parse essential version info from output") := by
  refine ⟨?_, ?_, ?_⟩
  · simp only [parseVersionInfo]
    by_cases h : vExtract .version (splitNL raw.data) = "" ∨
        vExtract .serialNumber (splitNL raw.data) = ""
    · rw [if_pos h]
      exact iff_of_true rfl h
    · rw [if_neg h]
      exact iff_of_false (by simp [Except.toOption]) h
  · intro m hm
    simp only [parseVersionInfo] at hm
    split at hm
    · simp at hm
    · next hcond =>
      push_neg at hcond
      rw [Except.ok.injEq] at hm
      subst hm
      refine ⟨?_, hcond.1, ?_, hcond.2⟩
      · exact List.mem_filter.mpr ⟨by simp, by simpa using hcond.1⟩
      · exact List.mem_filter.mpr ⟨by simp, by simpa using hcond.2⟩
  · intro hv hs
    simp only [parseVersionInfo]
    rw [if_pos (Or.inl (vExtract_empty (splitNL raw.data) hv))]

/-- C4 (witness): a two-line blob with no matching line fails. -/
theorem version_mandatory_fields_witness :
    ((parseVersionInfo "foo\nbar").toOption = none ↔
      vExtract .version (splitNL ("foo\nbar" : String).data) = "" ∨
      vExtract .serialNumber (splitNL ("foo\nbar" : String).data) = "") ∧
    parseVersionInfo "foo\nbar" =
      .error "could not parse essential version info from output" :=
  ⟨(version_mandatory_fields "foo\nbar").1,
   (version_mandatory_fields "foo\nbar").2.2 (by decide) (by decide)⟩

/-- C6: first-match-wins in the per-field alternation extractor — if the
lines before `a` yield no value for field `f` and `a` yields `v` (the
first non-empty capture group of its leftmost-first match), the field's
final value is `v`, and a later matching line `b` leaves the populated
field unchanged (removing `b` does not change the result). -/
theorem version_first_match_wins
    (f : VField) (pre mid post : List (List Char)) (a b v w : List Char)
    (hpre : ∀ x ∈ pre, vLineValue f x = none)
    (ha : vLineValue f a = some v)
    (hb : vLineValue f b = some w) :
    vExtract f (pre ++ a :: (mid ++ b :: post)) = ⟨v⟩ ∧
    vExtract f (pre ++ a :: (mid ++ b :: post)) = vExtract f (pre ++ a :: (mid ++ post)) := by
  have h1 := @vExtract_first f pre (mid ++ b :: post) a v hpre ha
  have h2 := @vExtract_first f pre (mid ++ post) a v hpre ha
  exact ⟨h1, h1.trans h2.symm⟩

/-- C6 (witness): two lines matching distinct `Version` alternatives —
the earlier (`NXOS: version 9.3(5)`) wins and the later
(`Software Version : 1.0`) changes nothing. -/
theorem version_first_match_wins_witness :
    vExtract .version ["hello".data, "NXOS: version 9.3(5)".data,
      "Software Version : 1.0".data] = ⟨"9.3(5)".data⟩ ∧
    vExtract .version ["hello".data, "NXOS: version 9.3(5)".data,
      "Software Version : 1.0".data] =
      vExtract .version ["hello".data, "NXOS: version 9.3(5)".data] :=
  version_first_match_wins .version ["hello".data] [] []
    "NXOS: version 9.3(5)".data "Software Version : 1.0".data
    "9.3(5)".data "1.0".data (by decide) (by decide) (by decide)

/-! ## C8 and C9: inline power -/

/-- C8: `parsePowerInline` fails if and only if both the module sequence
and the PoE-interface sequence are empty; and the blob with one valid
Module row (exactly four tokens, not dash-led, inside the Module section)
and no valid Interface row succeeds with one module entry and an empty
port sequence. -/
theorem power_inline_error_iff :
    (∀ raw : String,
      (parsePowerInline raw).toOption = none ↔
        (powerScan raw).1 = [] ∧ (powerScan raw).2 = []) ∧
    parsePowerInline "Module Available Used Remaining\n1 370.0 0.0 370.0" =
      .ok ([{ Module := "1", Available := "370.0", Used := "0.0",
              Remaining := "370.0" }], []) := by
  constructor
  · intro raw
    simp only [parsePowerInline]
    by_cases h : ((powerScan raw).1.isEmpty && (powerScan raw).2.isEmpty) = true
    · rw [if_pos h]
      simp only [Bool.and_eq_true, List.isEmpty_iff] at h
      exact iff_of_true rfl h
    · rw [if_neg h]
      simp only [Bool.and_eq_true, List.isEmpty_iff] at h
      exact iff_of_false (by simp [Except.toOption]) h
  · decide

/-- C9 (counterexample): the claim quantifies over every non-blank line
failing the shape predicate, but a line whose first token is exactly a
section keyword changes state even though it fails the predicate:
`Module x y z` has four tokens (fewer than six, failing the Interface
shape predicate), yet inside the Interface section it switches the state
machine to the Module section, so the following valid interface line
produces no record and the whole parse fails. -/
theorem power_module_keyword_breaks_isolation :
    (goFields "Module x y z".data).length = 4 ∧
    powerStep (.secInterface, [], []) "Module x y z".data = (.secModule, [], []) ∧
    parsePowerInline "Interface\nModule x y z\nGi1/0/1 auto on 6.3 Ph 2 15.4" =
      .error "could not find module or interface data in output" := by
  refine ⟨by decide, by decide, by decide⟩

/-- C9 (amended): state isolation holds for every non-blank line whose
first token is not a section keyword: in the Interface section a line
failing the shape predicate (fewer than six tokens, or first token
without `/`) emits no record and leaves state and accumulators unchanged,
so a following valid interface line still appends exactly its record; in
the Module section a line that is not exactly four tokens or is dash-led
is likewise ignored without a state change. -/
theorem power_state_isolation :
    (∀ (sec : PowerSection) (mods : List PowerModuleInfo) (ifs : List PowerInterfaceInfo)
       (line f0 : List Char) (rest : List (List Char)),
      goFields line = f0 :: rest →
      f0 ≠ "Module".data → f0 ≠ "Interface".data →
      ((sec = .secInterface →
        ((f0 :: rest).length < 6 ∨ containsSub f0 "/".data = false) →
        powerStep (sec, mods, ifs) line = (sec, mods, ifs)) ∧
       (sec = .secModule →
        ((f0 :: rest).length ≠ 4 ∨ startsWith "---".data f0 = true) →
        powerStep (sec, mods, ifs) line = (sec, mods, ifs)))) ∧
    (∀ (mods : List PowerModuleInfo) (ifs : List PowerInterfaceInfo)
       (bad b0 good g0 : List Char) (brest grest : List (List Char)),
      goFields bad = b0 :: brest →
      b0 ≠ "Module".data → b0 ≠ "Interface".data →
      ((b0 :: brest).length < 6 ∨ containsSub b0 "/".data = false) →
      goFields good = g0 :: grest →
      g0 ≠ "Module".data → g0 ≠ "Interface".data →
      6 ≤ (g0 :: grest).length → containsSub g0 "/".data = true →
      powerStep (powerStep (.secInterface, mods, ifs) bad) good =
        (.secInterface, mods,
         ifs ++ [{ Interface := ⟨g0⟩,
                   Admin := ⟨(g0 :: grest).getD 1 []⟩,
                   Oper := ⟨(g0 :: grest).getD 2 []⟩,
                   Power := ⟨(g0 :: grest).getD 3 []⟩,
                   Device := ⟨joinSep [' ']
                     (((g0 :: grest).take ((g0 :: grest).length - 2)).drop 4)⟩,
                   Class := ⟨(g0 :: grest).getD ((g0 :: grest).length - 2) []⟩,
                   Max := ⟨(g0 :: grest).getD ((g0 :: grest).length - 1) []⟩ }])) := by
  have step_ignore :
      ∀ (sec : PowerSection) (mods : List PowerModuleInfo) (ifs : List PowerInterfaceInfo)
        (line f0 : List Char) (rest : List (List Char)),
        goFields line = f0 :: rest →
        f0 ≠ "Module".data → f0 ≠ "Interface".data →
        ((sec = .secInterface →
          ((f0 :: rest).length < 6 ∨ containsSub f0 "/".data = false) →
          powerStep (sec, mods, ifs) line = (sec, mods, ifs)) ∧
         (sec = .secModule →
          ((f0 :: rest).length ≠ 4 ∨ startsWith "---".data f0 = true) →
          powerStep (sec, mods, ifs) line = (sec, mods, ifs))) := by
    intro sec mods ifs line f0 rest hf hm hi
    have hmb : (f0 == "Module".data) = false := by
      simpa using hm
    have hib : (f0 == "Interface".data) = false := by
      simpa using hi
    constructor
    · rintro rfl hshape
      simp only [powerStep, hf, hmb, hib, Bool.false_eq_true, if_false]
      rw [if_neg ?_]
      simp only [Bool.and_eq_true, decide_eq_true_eq, not_and]
      intro h6
      rcases hshape with h | h
      · omega
      · intro hcon
        rw [h] at hcon
        simp at hcon
    · rintro rfl hshape
      simp only [powerStep, hf, hmb, hib, Bool.false_eq_true, if_false]
      rw [if_neg ?_]
      simp only [Bool.and_eq_true, beq_iff_eq, Bool.not_eq_true', not_and]
      intro h4
      rcases hshape with h | h
      · exact absurd (by simpa using h4) h
      · intro hcon
        rw [h] at hcon
        simp at hcon
  refine ⟨step_ignore, ?_⟩
  intro mods ifs bad b0 good g0 brest grest hbf hbm hbi hbshape hgf hgm hgi hg6 hgslash
  rw [(step_ignore _ mods ifs bad b0 brest hbf hbm hbi).1 rfl hbshape]
  have hgmb : (g0 == "Module".data) = false := by simpa using hgm
  have hgib : (g0 == "Interface".data) = false := by simpa using hgi
  simp only [powerStep, hgf, hgmb, hgib, Bool.false_eq_true, if_false]
  rw [if_pos ?_]
  simp only [Bool.and_eq_true, decide_eq_true_eq]
  exact ⟨hg6, hgslash⟩

/-- C9 (witness): a `(Watts)` unit line inside the Interface section is
ignored and a following valid interface line still yields its record. -/
theorem power_state_isolation_witness :
    powerStep (.secInterface, [], []) "          (Watts)".data = (.secInterface, [], []) ∧
    powerStep (powerStep (.secInterface, ([] : List PowerModuleInfo),
        ([] : List PowerInterfaceInfo)) "          (Watts)".data)
        "Gi1/0/1   auto   on         6.3     IP Phone 8845       2     30.0".data =
      (.secInterface, [],
       [{ Interface := "Gi1/0/1", Admin := "auto", Oper := "on", Power := "6.3",
          Device := "IP Phone 8845", Class := "2", Max := "30.0" }]) := by
  constructor
  · exact (power_state_isolation.1 .secInterface [] [] "          (Watts)".data
      "(Watts)".data [] (by decide) (by decide) (by decide)).1 rfl (by decide)
  · exact (power_state_isolation.2 [] [] "          (Watts)".data "(Watts)".data
      "Gi1/0/1   auto   on         6.3     IP Phone 8845       2     30.0".data
      "Gi1/0/1".data [] ["auto".data, "on".data, "6.3".data, "IP".data, "Phone".data,
        "8845".data, "2".data, "30.0".data]
      (by decide) (by decide) (by decide) (by decide) (by decide) (by decide)
      (by decide) (by decide) (by decide)).trans (by decide)

/-! ## C10: LLDP totality -/

theorem checkedSlice_some {l : List Char} {a b : Nat} (h1 : a ≤ b) (h2 : b ≤ l.length) :
    checkedSlice l a b = some (goSlice l a b) := if_pos ⟨h1, h2⟩

theorem checkedSliceFrom_some {l : List Char} {a : Nat} (h : a ≤ l.length) :
    checkedSliceFrom l a = some (l.drop a) := if_pos h

/-- C10: provided the five header labels occur at offsets ordered
`Device ID ≤ Local Intf ≤ Hold-time ≤ Capability ≤ Port ID`,
`parseLldpNeighbors` is total: no data line makes a slice go out of
bounds (no Go panic) — blank lines, `Total entries displayed` lines and
lines shorter than the Port ID offset are skipped without a record, and
on every other data line all five column slices are within bounds. -/
theorem lldp_total_under_ordered_offsets
    (d li h c p : Nat) (h1 : d ≤ li) (h2 : li ≤ h) (h3 : h ≤ c) (h4 : c ≤ p) :
    (∀ line : List Char, (lldpLineChecked d li h c p line).isSome = true) ∧
    (∀ line : List Char,
      (goTrimSpace line).isEmpty = true ∨
      containsSub line "Total entries displayed".data = true ∨
      line.length < p →
      lldpLineChecked d li h c p line = some none) ∧
    (∀ lines : List (List Char), (lldpLines d li h c p lines).isSome = true) ∧
    (∀ (raw : String) (hi : Nat),
      (splitNL raw.data).findIdx? (fun l => startsWith "Device ID".data l) = some hi →
      goIndexSub ((splitNL raw.data).getD hi []) "Device ID".data = some d →
      goIndexSub ((splitNL raw.data).getD hi []) "Local Intf".data = some li →
      goIndexSub ((splitNL raw.data).getD hi []) "Hold-time".data = some h →
      goIndexSub ((splitNL raw.data).getD hi []) "Capability".data = some c →
      goIndexSub ((splitNL raw.data).getD hi []) "Port ID".data = some p →
      (parseLldpNeighborsChecked raw).isSome = true) := by
  have hline : ∀ line : List Char, (lldpLineChecked d li h c p line).isSome = true := by
    intro line
    simp only [lldpLineChecked]
    split
    · rfl
    · split
      · rfl
      · next hskip hlen =>
        push_neg at hlen
        rw [checkedSlice_some h2 (by omega), checkedSlice_some h1 (by omega),
            checkedSliceFrom_some (by omega), checkedSlice_some h3 (by omega),
            checkedSlice_some h4 (by omega)]
        rfl
  have hlines : ∀ lines : List (List Char), (lldpLines d li h c p lines).isSome = true := by
    intro lines
    induction lines with
    | nil => rfl
    | cons x xs ih =>
      unfold lldpLines
      have := hline (dropTrailingCR x)
      cases hx : lldpLineChecked d li h c p (dropTrailingCR x) with
      | none => rw [hx] at this; simp at this
      | some o =>
        cases o with
        | none => exact ih
        | some r => simpa using ih
  refine ⟨hline, ?_, hlines, ?_⟩
  · intro line hcase
    unfold lldpLineChecked
    split
    · rfl
    · next hskip =>
      rw [if_pos ?_]
      rcases hcase with hc | hc | hc
      · exact absurd (by simp [hc]) hskip
      · exact absurd (by simp [hc]) hskip
      · exact hc
  · intro raw hi hfind hd hli hh hc hp
    unfold parseLldpNeighborsChecked
    rw [hfind]
    dsimp only
    rw [hd, hli, hh, hc, hp]
    dsimp only
    cases hll : lldpLines d li h c p (List.drop (hi + 1) (splitNL raw.data)) with
    | none =>
      have := hlines (List.drop (hi + 1) (splitNL raw.data))
      rw [hll] at this
      simp at this
    | some l => simp [hll]

/-- C10 (witness): the ordered offsets of a concrete LLDP header, applied
to a blob with a regular data line, a blank line, a short line and a
`Total entries displayed` line. -/
theorem lldp_total_witness :
    ((0 : Nat) ≤ 20 ∧ (20 : Nat) ≤ 35 ∧ (35 : Nat) ≤ 46 ∧ (46 : Nat) ≤ 62) ∧
    (parseLldpNeighborsChecked "Device ID           Local Intf     Hold-time  Capability      Port ID\nswitch-access.local Gi1/0/48       120        B,R             Gi1/0/1\nshort line\n\nTotal entries displayed: 1\n").isSome = true :=
  ⟨⟨by decide, by decide, by decide, by decide⟩,
   (lldp_total_under_ordered_offsets 0 20 35 46 62
      (by decide) (by decide) (by decide) (by decide)).2.2.2
     "Device ID           Local Intf     Hold-time  Capability      Port ID\nswitch-access.local Gi1/0/48       120        B,R             Gi1/0/1\nshort line\n\nTotal entries displayed: 1\n"
     0 (by decide) (by decide) (by decide) (by decide) (by decide) (by decide)⟩

/-! ## C7: multi-line record stitchers -/

theorem startsWith_cons (p c : Char) (ps cs : List Char) :
    startsWith (p :: ps) (c :: cs) = (p == c && startsWith ps cs) := rfl

theorem cfgStartName_not_skip {t name : List Char} (h : cfgStartName t = some name) :
    cfgSkip t = false := by
  unfold cfgStartName at h
  cases t with
  | nil => simp [startsWith] at h
  | cons c cs =>
    by_cases hsw : startsWith "interface".data (c :: cs) = true
    · have hc : c = 'i' := by
        have h9 : "interface".data = 'i' :: "nterface".data := rfl
        rw [h9, startsWith_cons, Bool.and_eq_true, beq_iff_eq] at hsw
        exact hsw.1.symm
      subst hc
      unfold cfgSkip
      have e1 : "!".data = '!' :: [] := rfl
      have e2 : "version".data = 'v' :: "ersion".data := rfl
      have e3 : "hostname".data = 'h' :: "ostname".data := rfl
      rw [e1, e2, e3, startsWith_cons, startsWith_cons, startsWith_cons]
      simp
    · rw [if_neg hsw] at h
      simp at h

theorem cfgStep_fold_body (post : List (List Char)) :
    ∀ (cfgs : List InterfaceConfig) (c : InterfaceConfig),
    (∀ l ∈ post, cfgSkip (goTrimSpace l) = false ∧ cfgStartName (goTrimSpace l) = none) →
    post.foldl cfgStep (cfgs, some c) =
      (cfgs, some { c with ConfigLines :=
        c.ConfigLines ++ post.map (fun l => (⟨goTrimSpace l⟩ : String)) }) := by
  induction post with
  | nil => intro cfgs c _; simp
  | cons x xs ih =>
    intro cfgs c hpost
    obtain ⟨hx1, hx2⟩ := hpost x (List.mem_cons_self _ _)
    have hxs : ∀ l ∈ xs, cfgSkip (goTrimSpace l) = false ∧ cfgStartName (goTrimSpace l) = none :=
      fun l hl => hpost l (List.mem_cons_of_mem _ hl)
    rw [List.foldl_cons]
    have hstep : cfgStep (cfgs, some c) x =
        (cfgs, some { c with ConfigLines := c.ConfigLines ++ [(⟨goTrimSpace x⟩ : String)] }) := by
      simp only [cfgStep, hx1, hx2, Bool.false_eq_true, if_false]
    rw [hstep, ih cfgs _ hxs]
    simp

theorem blocksStep_fold_body (post : List (List Char)) :
    ∀ (blocks : List (List (List Char))) (cur : List (List Char)),
    cur ≠ [] →
    (∀ l ∈ post, ifaceStartMatch l = false) →
    post.foldl blocksStep (blocks, cur) = (blocks, cur ++ post) := by
  induction post with
  | nil => intro blocks cur _ _; simp
  | cons x xs ih =>
    intro blocks cur hcur hpost
    have hx : ifaceStartMatch x = false := hpost x (List.mem_cons_self _ _)
    rw [List.foldl_cons]
    have hstep : blocksStep (blocks, cur) x = (blocks, cur ++ [x]) := by
      simp only [blocksStep, hx, Bool.false_eq_true, if_false]
      rw [if_pos (by simpa using hcur)]
    rw [hstep, ih blocks (cur ++ [x]) (by simp) (fun l hl => hpost l (List.mem_cons_of_mem _ hl))]
    simp

/-- C7 (counterexample): an input consisting of exactly one record-start
line contains a record-start line, yet `parseInterfaces` emits nothing for
it — the cleaning pass collects lines only after one containing
`show interface`, so the record begun by the last start line is lost. -/
theorem iface_last_start_can_vanish :
    ifaceStartMatch "GigabitEthernet1/0/1 is up, line protocol is up".data = true ∧
    parseInterfacesBlocks "GigabitEthernet1/0/1 is up, line protocol is up" = [] ∧
    parseInterfacesEmitted "GigabitEthernet1/0/1 is up, line protocol is up" = [] := by
  refine ⟨by decide, by decide, by decide⟩

/-- C7 (amended): the trailing record survives in both stitchers, with
the provisos the source imposes.  `parseInterfaceConfig`: whenever the
line list splits as `pre ++ s :: post` with `s` a record start and every
line of `post` neither skipped nor a start, the parse succeeds and its
final element is exactly the block begun by `s` (its trimmed lines).
`parseInterfaces`: whenever the *cleaned* window splits as
`pre ++ s :: post` with `s` a record start and no start in `post`, the
final stitched block is `s :: post`, and it is emitted as the final
record whenever its joined text matches the status pattern. -/
theorem stitcher_last_record :
    (∀ (raw : String) (pre post : List (List Char)) (s name : List Char),
      splitNL raw.data = pre ++ s :: post →
      cfgStartName (goTrimSpace s) = some name →
      (∀ l ∈ post, cfgSkip (goTrimSpace l) = false ∧ cfgStartName (goTrimSpace l) = none) →
      ∃ cfgs, parseInterfaceConfig raw = .ok cfgs ∧
        cfgs.getLast? = some { Interface := ⟨name⟩,
                               ConfigLines := (⟨goTrimSpace s⟩ : String) ::
                                 post.map (fun l => (⟨goTrimSpace l⟩ : String)) }) ∧
    (∀ (raw : String) (pre post : List (List Char)) (s : List Char),
      cleanLines raw = pre ++ s :: post →
      ifaceStartMatch s = true →
      (∀ l ∈ post, ifaceStartMatch l = false) →
      (parseInterfacesBlocks raw).getLast? = some (s :: post) ∧
      ((reStatusMatch (joinNL (s :: post))).isSome = true →
        (parseInterfacesEmitted raw).getLast? = some (s :: post))) := by
  constructor
  · intro raw pre post s name hsplit hstart hpost
    unfold parseInterfaceConfig
    rw [hsplit, List.foldl_append]
    rcases h0 : pre.foldl cfgStep ([], none) with ⟨cfgs0, cur0⟩
    rw [List.foldl_cons]
    have hstep : cfgStep (cfgs0, cur0) s =
        (cfgs0 ++ cur0.toList, some { Interface := ⟨name⟩,
                                      ConfigLines := [(⟨goTrimSpace s⟩ : String)] }) := by
      simp only [cfgStep, cfgStartName_not_skip hstart, hstart, Bool.false_eq_true, if_false]
    rw [hstep, cfgStep_fold_body post _ _ hpost]
    refine ⟨(cfgs0 ++ cur0.toList) ++
      [{ Interface := ⟨name⟩,
         ConfigLines := (⟨goTrimSpace s⟩ : String) ::
             post.map (fun l => (⟨goTrimSpace l⟩ : String)) }], ?_, ?_⟩
    · rw [if_neg (by simp)]
      simp
    · exact List.getLast?_concat _
  · intro raw pre post s hsplit hstart hpost
    have hblocks : parseInterfacesBlocks raw =
        ((cleanLines raw).foldl blocksStep ([], [])).1 ++ [s :: post] := by
      unfold parseInterfacesBlocks
      rw [hsplit, List.foldl_append]
      rcases h0 : pre.foldl blocksStep ([], []) with ⟨blocks0, cur0⟩
      rw [List.foldl_cons]
      have hstep : blocksStep (blocks0, cur0) s =
          (blocks0 ++ (if cur0.isEmpty then [] else [cur0]), [s]) := by
        simp only [blocksStep, hstart, if_true]
      rw [hstep, blocksStep_fold_body post _ _ (by simp) hpost]
      simp
    constructor
    · rw [hblocks]
      exact List.getLast?_concat _
    · intro hmatch
      unfold parseInterfacesEmitted
      rw [hblocks, List.filter_append]
      have : List.filter (fun b => (reStatusMatch (joinNL b)).isSome) [s :: post] =
          [s :: post] := by
        simp [List.filter, hmatch]
      rw [this]
      exact List.getLast?_concat _

/-- C7 (witness): one record-start line followed by three detail lines
and no further start — both stitchers keep the full four-line record as
their final (here only) element. -/
theorem stitcher_last_record_witness :
    (∃ cfgs, parseInterfaceConfig
        "interface Gi1/0/1\n description x\n switchport access vlan 2\n no shut" = .ok cfgs ∧
      cfgs.getLast? = some { Interface := "Gi1/0/1",
                             ConfigLines := ["interface Gi1/0/1", "description x",
                               "switchport access vlan 2", "no shut"] }) ∧
    (parseInterfacesBlocks
        "sw1# show interface\nGigabitEthernet1/0/1 is up, line protocol is up\n  Hardware is X\n  MTU 1500\n  desc line\nsw1#").getLast? =
      some ["GigabitEthernet1/0/1 is up, line protocol is up".data,
        "  Hardware is X".data, "  MTU 1500".data, "  desc line".data] ∧
    (parseInterfacesEmitted
        "sw1# show interface\nGigabitEthernet1/0/1 is up, line protocol is up\n  Hardware is X\n  MTU 1500\n  desc line\nsw1#").getLast? =
      some ["GigabitEthernet1/0/1 is up, line protocol is up".data,
        "  Hardware is X".data, "  MTU 1500".data, "  desc line".data] := by
  refine ⟨?_, ?_, ?_⟩
  · obtain ⟨cfgs, h1, h2⟩ := stitcher_last_record.1
      "interface Gi1/0/1\n description x\n switchport access vlan 2\n no shut"
      [] [" description x".data, " switchport access vlan 2".data, " no shut".data]
      "interface Gi1/0/1".data "Gi1/0/1".data (by decide) (by decide) (by decide)
    exact ⟨cfgs, h1, h2.trans (by decide)⟩
  · have h := (stitcher_last_record.2
      "sw1# show interface\nGigabitEthernet1/0/1 is up, line protocol is up\n  Hardware is X\n  MTU 1500\n  desc line\nsw1#"
      [] ["  Hardware is X".data, "  MTU 1500".data, "  desc line".data]
      "GigabitEthernet1/0/1 is up, line protocol is up".data
      (by decide) (by decide) (by decide)).1
    exact h
  · have h := (stitcher_last_record.2
      "sw1# show interface\nGigabitEthernet1/0/1 is up, line protocol is up\n  Hardware is X\n  MTU 1500\n  desc line\nsw1#"
      [] ["  Hardware is X".data, "  MTU 1500".data, "  desc line".data]
      "GigabitEthernet1/0/1 is up, line protocol is up".data
      (by decide) (by decide) (by decide)).2 (by decide)
    exact h

end Cisco
